import Mathlib

/-!
Verification of the KTextEditor core subsystems: the attributed text line
(src/buffer/katetextline.cpp) and the modification-state undo records
(src/undo/katemodifiedundo.cpp).

Characters are modelled as Lean `Char`, lines as `List Char`, and the
C++ `int` columns as `Int` (with the source's negative-input clamping kept).
-/

namespace KTE

/-- Width one character occupies when rendered at visual column x: a tab
expands to the next multiple of the tab width. This mirrors the branch on
QLatin1Char in TextLine::toVirtualColumn, TextLine::fromVirtualColumn and
TextLine::virtualLength (src/buffer/katetextline.cpp). -/
def charWidth (tabWidth x : Nat) (ch : Char) : Nat :=
  if ch = '\t' then tabWidth - x % tabWidth else 1

/-- The accumulation loop of TextLine::toVirtualColumn: starting at visual
column x, advance x across the given characters. -/
def toVirtLoop (tabWidth : Nat) : List Char → Nat → Nat
  | [], x => x
  | ch :: rest, x => toVirtLoop tabWidth rest (x + charWidth tabWidth x ch)

/-- TextLine::toVirtualColumn (src/buffer/katetextline.cpp, lines 105-124):
negative columns clamp to 0; the first min(column, length) characters are
expanded; any excess of the column beyond the line length counts one to one. -/
def toVirtualColumn (text : List Char) (column : Int) (tabWidth : Nat) : Int :=
  if column < 0 then 0
  else
    ((toVirtLoop tabWidth (text.take (min column.toNat text.length)) 0
        + (column.toNat - min column.toNat text.length) : Nat) : Int)

/-- The walking loop of TextLine::fromVirtualColumn: consume characters while
adding the next character's width does not push x past the target column c;
on exit return the character index z plus the leftover excess
(the source's qMax(column - x, 0) is truncated Nat subtraction here). -/
def fromVirtLoop (tabWidth c : Nat) : List Char → Nat → Nat → Nat
  | [], x, z => z + (c - x)
  | ch :: rest, x, z =>
    if c < x + charWidth tabWidth x ch then z + (c - x)
    else fromVirtLoop tabWidth c rest (x + charWidth tabWidth x ch) (z + 1)

/-- TextLine::fromVirtualColumn (src/buffer/katetextline.cpp, lines 126-150):
negative columns clamp to 0; the loop runs over the first
min(length, column) characters. -/
def fromVirtualColumn (text : List Char) (column : Int) (tabWidth : Nat) : Int :=
  if column < 0 then 0
  else
    ((fromVirtLoop tabWidth column.toNat
        (text.take (min text.length column.toNat)) 0 0 : Nat) : Int)

/-- One highlight attribute run of a text line (Kate::TextLine::Attribute):
a half open span [offset, offset + length) carrying an attribute value. -/
structure Attribute where
  offset : Nat
  length : Nat
  attributeValue : Int
deriving DecidableEq, Repr

/-- TextLine::addAttribute (src/buffer/katetextline.cpp, lines 169-179):
append a run, but extend the previous run in place when it carries the same
attribute value and its span ends exactly where the new run starts. -/
def addAttribute (list : List Attribute) (attr : Attribute) : List Attribute :=
  match list.getLast? with
  | some back =>
    if back.attributeValue = attr.attributeValue
        ∧ back.offset + back.length = attr.offset then
      list.dropLast ++ [⟨back.offset, back.length + attr.length, back.attributeValue⟩]
    else list ++ [attr]
  | none => list ++ [attr]

/-- TextLine::attribute (src/buffer/katetextline.cpp, lines 181-190). The
std::upper_bound call returns the first run whose span end lies past pos,
which is what it computes whenever the run list is partitioned by that
predicate (the sortedness precondition); modelled as List.find? with the
same predicate. Named attributeAt because attribute is reserved in Lean. -/
def attributeAt (list : List Attribute) (pos : Nat) : Int :=
  match list.find? (fun x => decide (pos < x.offset + x.length)) with
  | some found =>
    if found.offset ≤ pos ∧ pos < found.offset + found.length then found.attributeValue
    else 0
  | none => 0

/-- Two runs merge when they carry the same attribute value and the first
span ends exactly where the second starts: the condition tested by
TextLine::addAttribute. -/
def mergeableWith (b a : Attribute) : Prop :=
  b.attributeValue = a.attributeValue ∧ b.offset + b.length = a.offset

instance (b a : Attribute) : Decidable (mergeableWith b a) :=
  inferInstanceAs (Decidable (b.attributeValue = a.attributeValue
    ∧ b.offset + b.length = a.offset))

/-- The flag members of KateUndo::ModificationFlag (declared in kateundo.h,
used throughout src/undo/katemodifiedundo.cpp). -/
inductive UndoFlag where
  | RedoLine1Modified
  | RedoLine1Saved
  | RedoLine2Modified
  | RedoLine2Saved
  | UndoLine1Modified
  | UndoLine1Saved
  | UndoLine2Modified
  | UndoLine2Saved
deriving DecidableEq, Repr

/-- The flag bitset of an undo record: one Bool per ModificationFlag member. -/
structure Flags where
  redoLine1Modified : Bool
  redoLine1Saved : Bool
  redoLine2Modified : Bool
  redoLine2Saved : Bool
  undoLine1Modified : Bool
  undoLine1Saved : Bool
  undoLine2Modified : Bool
  undoLine2Saved : Bool
deriving DecidableEq, Repr

/-- A freshly constructed record carries no flags. -/
def emptyFlags : Flags :=
  ⟨false, false, false, false, false, false, false, false⟩

/-- KateUndo::setFlag: turn one flag on. -/
def setFlag (f : Flags) : UndoFlag → Flags
  | .RedoLine1Modified => { f with redoLine1Modified := true }
  | .RedoLine1Saved => { f with redoLine1Saved := true }
  | .RedoLine2Modified => { f with redoLine2Modified := true }
  | .RedoLine2Saved => { f with redoLine2Saved := true }
  | .UndoLine1Modified => { f with undoLine1Modified := true }
  | .UndoLine1Saved => { f with undoLine1Saved := true }
  | .UndoLine2Modified => { f with undoLine2Modified := true }
  | .UndoLine2Saved => { f with undoLine2Saved := true }

/-- KateUndo::unsetFlag: turn one flag off. -/
def unsetFlag (f : Flags) : UndoFlag → Flags
  | .RedoLine1Modified => { f with redoLine1Modified := false }
  | .RedoLine1Saved => { f with redoLine1Saved := false }
  | .RedoLine2Modified => { f with redoLine2Modified := false }
  | .RedoLine2Saved => { f with redoLine2Saved := false }
  | .UndoLine1Modified => { f with undoLine1Modified := false }
  | .UndoLine1Saved => { f with undoLine1Saved := false }
  | .UndoLine2Modified => { f with undoLine2Modified := false }
  | .UndoLine2Saved => { f with undoLine2Saved := false }

/-- KateUndo::isFlagSet: test one flag. -/
def isFlagSet (f : Flags) : UndoFlag → Bool
  | .RedoLine1Modified => f.redoLine1Modified
  | .RedoLine1Saved => f.redoLine1Saved
  | .RedoLine2Modified => f.redoLine2Modified
  | .RedoLine2Saved => f.redoLine2Saved
  | .UndoLine1Modified => f.undoLine1Modified
  | .UndoLine1Saved => f.undoLine1Saved
  | .UndoLine2Modified => f.undoLine2Modified
  | .UndoLine2Saved => f.undoLine2Saved

/-- The modified and savedOnDisk markers of one Kate::TextLine, the only
line state the undo records read and write. -/
structure LineState where
  modified : Bool
  savedOnDisk : Bool
deriving DecidableEq, Repr

/-- Kate::TextLine::markedAsModified, the getter read by the record
constructors. -/
def markedAsModified (tl : LineState) : Bool := tl.modified

/-- Kate::TextLine::markedAsSavedOnDisk, the getter read by the record
constructors. -/
def markedAsSavedOnDisk (tl : LineState) : Bool := tl.savedOnDisk

/-- Modelled from the spec: Kate::TextLine::markAsModified lives in
katetextline.h, which is not among the sources here. The spec states that
undo and redo set each affected line's flags from the record's flag pair
and, when neither flag of the pair is set, leave the line's flags
unchanged; so marking with true puts the line in the Modified state (the
per line states are mutually exclusive) and marking with false changes
nothing. -/
def markAsModified (b : Bool) (tl : LineState) : LineState :=
  if b then ⟨true, false⟩ else tl

/-- Modelled from the spec: Kate::TextLine::markAsSavedOnDisk, also in
katetextline.h; see markAsModified. Marking with true puts the line in the
SavedOnDisk state, marking with false changes nothing. -/
def markAsSavedOnDisk (b : Bool) (tl : LineState) : LineState :=
  if b then ⟨false, true⟩ else tl

/-- KateModifiedInsertText constructor
(src/undo/katemodifiedundo.cpp, lines 15-26): flag derivation from the
state of the edited line. -/
def mkInsertText (tl : LineState) : Flags :=
  let f := setFlag emptyFlags .RedoLine1Modified
  if markedAsModified tl then setFlag f .UndoLine1Modified
  else setFlag f .UndoLine1Saved

/-- KateModifiedRemoveText constructor
(src/undo/katemodifiedundo.cpp, lines 28-39). -/
def mkRemoveText (tl : LineState) : Flags :=
  let f := setFlag emptyFlags .RedoLine1Modified
  if markedAsModified tl then setFlag f .UndoLine1Modified
  else setFlag f .UndoLine1Saved

/-- KateModifiedWrapLine constructor
(src/undo/katemodifiedundo.cpp, lines 41-63): col is the split column and
len the number of characters moved to the new second line. -/
def mkWrapLine (tl : LineState) (col len : Int) : Flags :=
  let f1 :=
    if 0 < len ∨ markedAsModified tl then setFlag emptyFlags .RedoLine1Modified
    else if markedAsSavedOnDisk tl then setFlag emptyFlags .RedoLine1Saved
    else emptyFlags
  let f2 :=
    if 0 < col ∨ len = 0 ∨ markedAsModified tl then setFlag f1 .RedoLine2Modified
    else if markedAsSavedOnDisk tl then setFlag f1 .RedoLine2Saved
    else f1
  if markedAsModified tl then setFlag f2 .UndoLine1Modified
  else if (0 < len ∧ 0 < col) ∨ markedAsSavedOnDisk tl then setFlag f2 .UndoLine1Saved
  else f2

/-- KateModifiedUnWrapLine constructor
(src/undo/katemodifiedundo.cpp, lines 65-127): len1 and len2 are the text
lengths of the merged line and of the following line. -/
def mkUnWrapLine (tl nextLine : LineState) (len1 len2 : Nat) : Flags :=
  if 0 < len1 ∧ 0 < len2 then
    let f1 := setFlag emptyFlags .RedoLine1Modified
    let f2 :=
      if markedAsModified tl then setFlag f1 .UndoLine1Modified
      else setFlag f1 .UndoLine1Saved
    if markedAsModified nextLine then setFlag f2 .UndoLine2Modified
    else setFlag f2 .UndoLine2Saved
  else if len1 = 0 then
    let f1 :=
      if markedAsModified nextLine then setFlag emptyFlags .RedoLine1Modified
      else if markedAsSavedOnDisk nextLine then setFlag emptyFlags .RedoLine1Saved
      else emptyFlags
    let f2 :=
      if markedAsModified tl then setFlag f1 .UndoLine1Modified
      else setFlag f1 .UndoLine1Saved
    if markedAsModified nextLine then setFlag f2 .UndoLine2Modified
    else if markedAsSavedOnDisk nextLine then setFlag f2 .UndoLine2Saved
    else f2
  else
    let f1 :=
      if markedAsModified nextLine then setFlag emptyFlags .RedoLine1Modified
      else if markedAsSavedOnDisk nextLine then setFlag emptyFlags .RedoLine1Saved
      else emptyFlags
    let f2 :=
      if markedAsModified tl then setFlag f1 .UndoLine1Modified
      else if markedAsSavedOnDisk tl then setFlag f1 .UndoLine1Saved
      else f1
    if markedAsModified nextLine then setFlag f2 .UndoLine2Modified
    else setFlag f2 .UndoLine2Saved

/-- KateModifiedInsertLine constructor
(src/undo/katemodifiedundo.cpp, lines 129-133). -/
def mkInsertLine : Flags := setFlag emptyFlags .RedoLine1Modified

/-- KateModifiedRemoveLine constructor
(src/undo/katemodifiedundo.cpp, lines 135-145). -/
def mkRemoveLine (tl : LineState) : Flags :=
  if markedAsModified tl then setFlag emptyFlags .UndoLine1Modified
  else setFlag emptyFlags .UndoLine1Saved

/-- The line flag update every undo() override performs on the record's
first line: markAsModified then markAsSavedOnDisk from the UndoLine1 pair
(src/undo/katemodifiedundo.cpp, lines 147-212). -/
def applyUndoLine1 (f : Flags) (tl : LineState) : LineState :=
  markAsSavedOnDisk (isFlagSet f .UndoLine1Saved)
    (markAsModified (isFlagSet f .UndoLine1Modified) tl)

/-- The update KateModifiedUnWrapLine::undo performs on the following line
from the UndoLine2 pair (src/undo/katemodifiedundo.cpp, lines 190-193). -/
def applyUndoLine2 (f : Flags) (tl : LineState) : LineState :=
  markAsSavedOnDisk (isFlagSet f .UndoLine2Saved)
    (markAsModified (isFlagSet f .UndoLine2Modified) tl)

/-- The line flag update every redo() override performs on the record's
first line from the RedoLine1 pair
(src/undo/katemodifiedundo.cpp, lines 214-280). -/
def applyRedoLine1 (f : Flags) (tl : LineState) : LineState :=
  markAsSavedOnDisk (isFlagSet f .RedoLine1Saved)
    (markAsModified (isFlagSet f .RedoLine1Modified) tl)

/-- The update KateModifiedWrapLine::redo performs on the new second line
from the RedoLine2 pair (src/undo/katemodifiedundo.cpp, lines 257-261). -/
def applyRedoLine2 (f : Flags) (tl : LineState) : LineState :=
  markAsSavedOnDisk (isFlagSet f .RedoLine2Saved)
    (markAsModified (isFlagSet f .RedoLine2Modified) tl)

/-- KateModifiedInsertText::undo (lines 147-156): line flag part. -/
def KateModifiedInsertText.undo (f : Flags) (tl : LineState) : LineState :=
  applyUndoLine1 f tl

/-- KateModifiedInsertText::redo (lines 225-234): line flag part. -/
def KateModifiedInsertText.redo (f : Flags) (tl : LineState) : LineState :=
  applyRedoLine1 f tl

/-- KateModifiedWrapLine::undo (lines 169-178): line flag part. -/
def KateModifiedWrapLine.undo (f : Flags) (tl : LineState) : LineState :=
  applyUndoLine1 f tl

/-- KateModifiedWrapLine::redo (lines 247-262): line flag part, on the
split line and on the new second line. -/
def KateModifiedWrapLine.redo (f : Flags) (tl nextLine : LineState) :
    LineState × LineState :=
  (applyRedoLine1 f tl, applyRedoLine2 f nextLine)

/-- The per line marker bitmap of the save reconciliation pass. QBitArray
grows on demand and pads with false, so it is modelled as a total function
from line index to Bool. -/
def Bitmap := Nat → Bool

/-- QBitArray::testBit. -/
def testBit (b : Bitmap) (i : Nat) : Bool := b i

/-- QBitArray::setBit. -/
def setBit (b : Bitmap) (i : Nat) : Bitmap :=
  fun j => if j = i then true else b j

/-- The fresh all-false marker bitmap a reconciliation pass starts with. -/
def emptyBitmap : Bitmap := fun _ => false

/-- KateModifiedInsertText::updateRedoSavedOnDiskFlag
(src/undo/katemodifiedundo.cpp, lines 282-294): unconditionally rewrite
the RedoLine1 pair to Saved, once per line index. -/
def KateModifiedInsertText.updateRedoSavedOnDiskFlag (line : Nat) (f : Flags)
    (lines : Bitmap) : Flags × Bitmap :=
  if !(testBit lines line) then
    (setFlag (unsetFlag f .RedoLine1Modified) .RedoLine1Saved, setBit lines line)
  else (f, lines)

/-- KateModifiedInsertText::updateUndoSavedOnDiskFlag (lines 296-308). -/
def KateModifiedInsertText.updateUndoSavedOnDiskFlag (line : Nat) (f : Flags)
    (lines : Bitmap) : Flags × Bitmap :=
  if !(testBit lines line) then
    (setFlag (unsetFlag f .UndoLine1Modified) .UndoLine1Saved, setBit lines line)
  else (f, lines)

/-- KateModifiedRemoveText::updateRedoSavedOnDiskFlag (lines 310-322). -/
def KateModifiedRemoveText.updateRedoSavedOnDiskFlag (line : Nat) (f : Flags)
    (lines : Bitmap) : Flags × Bitmap :=
  if !(testBit lines line) then
    (setFlag (unsetFlag f .RedoLine1Modified) .RedoLine1Saved, setBit lines line)
  else (f, lines)

/-- KateModifiedRemoveText::updateUndoSavedOnDiskFlag (lines 324-336). -/
def KateModifiedRemoveText.updateUndoSavedOnDiskFlag (line : Nat) (f : Flags)
    (lines : Bitmap) : Flags × Bitmap :=
  if !(testBit lines line) then
    (setFlag (unsetFlag f .UndoLine1Modified) .UndoLine1Saved, setBit lines line)
  else (f, lines)

/-- KateModifiedWrapLine::updateRedoSavedOnDiskFlag (lines 338-357): both
redo pairs, each guarded on its Modified flag and on the marker bit of its
line. -/
def KateModifiedWrapLine.updateRedoSavedOnDiskFlag (line : Nat) (f : Flags)
    (lines : Bitmap) : Flags × Bitmap :=
  let p1 :=
    if isFlagSet f .RedoLine1Modified && !(testBit lines line) then
      (setFlag (unsetFlag f .RedoLine1Modified) .RedoLine1Saved, setBit lines line)
    else (f, lines)
  if isFlagSet p1.1 .RedoLine2Modified && !(testBit p1.2 (line + 1)) then
    (setFlag (unsetFlag p1.1 .RedoLine2Modified) .RedoLine2Saved, setBit p1.2 (line + 1))
  else p1

/-- KateModifiedWrapLine::updateUndoSavedOnDiskFlag (lines 359-371). -/
def KateModifiedWrapLine.updateUndoSavedOnDiskFlag (line : Nat) (f : Flags)
    (lines : Bitmap) : Flags × Bitmap :=
  if isFlagSet f .UndoLine1Modified && !(testBit lines line) then
    (setFlag (unsetFlag f .UndoLine1Modified) .UndoLine1Saved, setBit lines line)
  else (f, lines)

/-- KateModifiedUnWrapLine::updateRedoSavedOnDiskFlag (lines 373-385). -/
def KateModifiedUnWrapLine.updateRedoSavedOnDiskFlag (line : Nat) (f : Flags)
    (lines : Bitmap) : Flags × Bitmap :=
  if isFlagSet f .RedoLine1Modified && !(testBit lines line) then
    (setFlag (unsetFlag f .RedoLine1Modified) .RedoLine1Saved, setBit lines line)
  else (f, lines)

/-- KateModifiedUnWrapLine::updateUndoSavedOnDiskFlag (lines 387-406). -/
def KateModifiedUnWrapLine.updateUndoSavedOnDiskFlag (line : Nat) (f : Flags)
    (lines : Bitmap) : Flags × Bitmap :=
  let p1 :=
    if isFlagSet f .UndoLine1Modified && !(testBit lines line) then
      (setFlag (unsetFlag f .UndoLine1Modified) .UndoLine1Saved, setBit lines line)
    else (f, lines)
  if isFlagSet p1.1 .UndoLine2Modified && !(testBit p1.2 (line + 1)) then
    (setFlag (unsetFlag p1.1 .UndoLine2Modified) .UndoLine2Saved, setBit p1.2 (line + 1))
  else p1

/-- KateModifiedInsertLine::updateRedoSavedOnDiskFlag (lines 408-420). -/
def KateModifiedInsertLine.updateRedoSavedOnDiskFlag (line : Nat) (f : Flags)
    (lines : Bitmap) : Flags × Bitmap :=
  if !(testBit lines line) then
    (setFlag (unsetFlag f .RedoLine1Modified) .RedoLine1Saved, setBit lines line)
  else (f, lines)

/-- KateModifiedRemoveLine::updateUndoSavedOnDiskFlag (lines 422-434). -/
def KateModifiedRemoveLine.updateUndoSavedOnDiskFlag (line : Nat) (f : Flags)
    (lines : Bitmap) : Flags × Bitmap :=
  if !(testBit lines line) then
    (setFlag (unsetFlag f .UndoLine1Modified) .UndoLine1Saved, setBit lines line)
  else (f, lines)

/-- The six undo record kinds (the spec's tagged variant view of the
KateModified* class family). -/
inductive UndoKind where
  | insertText
  | removeText
  | wrapLine
  | unwrapLine
  | insertLine
  | removeLine
deriving DecidableEq, Repr

/-- One undo record, reduced to the data the flag machinery touches: its
kind, its line index and its flag bitset. -/
structure UndoItem where
  kind : UndoKind
  line : Nat
  flags : Flags
deriving DecidableEq, Repr

/-- Virtual dispatch of updateRedoSavedOnDiskFlag over the record kinds.
KateModifiedInsertLine overrides only the redo direction and
KateModifiedRemoveLine only the undo direction; the base KateUndo update
is modelled from the spec as a no-op (InsertLine carries no undo flag and
RemoveLine no redo flag, their line does not exist in that direction). -/
def updateRedoFlag (it : UndoItem) (lines : Bitmap) : UndoItem × Bitmap :=
  match it.kind with
  | .insertText =>
    let p := KateModifiedInsertText.updateRedoSavedOnDiskFlag it.line it.flags lines
    ({ it with flags := p.1 }, p.2)
  | .removeText =>
    let p := KateModifiedRemoveText.updateRedoSavedOnDiskFlag it.line it.flags lines
    ({ it with flags := p.1 }, p.2)
  | .wrapLine =>
    let p := KateModifiedWrapLine.updateRedoSavedOnDiskFlag it.line it.flags lines
    ({ it with flags := p.1 }, p.2)
  | .unwrapLine =>
    let p := KateModifiedUnWrapLine.updateRedoSavedOnDiskFlag it.line it.flags lines
    ({ it with flags := p.1 }, p.2)
  | .insertLine =>
    let p := KateModifiedInsertLine.updateRedoSavedOnDiskFlag it.line it.flags lines
    ({ it with flags := p.1 }, p.2)
  | .removeLine => (it, lines)

/-- Virtual dispatch of updateUndoSavedOnDiskFlag; see updateRedoFlag. -/
def updateUndoFlag (it : UndoItem) (lines : Bitmap) : UndoItem × Bitmap :=
  match it.kind with
  | .insertText =>
    let p := KateModifiedInsertText.updateUndoSavedOnDiskFlag it.line it.flags lines
    ({ it with flags := p.1 }, p.2)
  | .removeText =>
    let p := KateModifiedRemoveText.updateUndoSavedOnDiskFlag it.line it.flags lines
    ({ it with flags := p.1 }, p.2)
  | .wrapLine =>
    let p := KateModifiedWrapLine.updateUndoSavedOnDiskFlag it.line it.flags lines
    ({ it with flags := p.1 }, p.2)
  | .unwrapLine =>
    let p := KateModifiedUnWrapLine.updateUndoSavedOnDiskFlag it.line it.flags lines
    ({ it with flags := p.1 }, p.2)
  | .insertLine => (it, lines)
  | .removeLine =>
    let p := KateModifiedRemoveLine.updateUndoSavedOnDiskFlag it.line it.flags lines
    ({ it with flags := p.1 }, p.2)

/-- The save reconciliation pass: every record receives its redo update
against one shared marker bitmap and its undo update against another,
independent one. The two directions touch disjoint flags and bitmaps, so
one traversal threading both bitmaps is the sequential composition of the
two sweeps the caller performs. -/
def reconcilePass : List UndoItem → Bitmap → Bitmap → List UndoItem
  | [], _, _ => []
  | it :: rest, br, bu =>
    let p1 := updateRedoFlag it br
    let p2 := updateUndoFlag p1.1 bu
    p2.1 :: reconcilePass rest p1.2 p2.2

/-- One full save reconciliation over a record list, both marker bitmaps
starting fresh. -/
def reconcile (items : List UndoItem) : List UndoItem :=
  reconcilePass items emptyBitmap emptyBitmap

/-- At most one flag of each (line slot, direction) pair is set. -/
def pairInvariant (f : Flags) : Bool :=
  !(f.redoLine1Modified && f.redoLine1Saved)
    && !(f.redoLine2Modified && f.redoLine2Saved)
    && !(f.undoLine1Modified && f.undoLine1Saved)
    && !(f.undoLine2Modified && f.undoLine2Saved)

/-- The two record kinds whose reconciliation updates are guarded on the
Modified flag (they touch two line slots). -/
def isTwoLineKind : UndoKind → Bool
  | .wrapLine => true
  | .unwrapLine => true
  | _ => false

theorem le_toVirtLoop (tabWidth : Nat) (l : List Char) (x : Nat) :
    x ≤ toVirtLoop tabWidth l x := by
  induction l generalizing x with
  | nil => exact Nat.le_refl x
  | cons ch rest ih =>
    exact Nat.le_trans (Nat.le_add_right x _) (ih _)

theorem one_le_charWidth (tabWidth x : Nat) (ch : Char) (hw : 1 ≤ tabWidth) :
    1 ≤ charWidth tabWidth x ch := by
  unfold charWidth
  split
  · have hx : x % tabWidth < tabWidth := Nat.mod_lt x hw
    omega
  · exact Nat.le_refl 1

theorem length_le_toVirtLoop (tabWidth : Nat) (hw : 1 ≤ tabWidth) (l : List Char) (x : Nat) :
    x + l.length ≤ toVirtLoop tabWidth l x := by
  induction l generalizing x with
  | nil => simp [toVirtLoop]
  | cons ch rest ih =>
    have h1 := one_le_charWidth tabWidth x ch hw
    have h2 := ih (x + charWidth tabWidth x ch)
    simp only [toVirtLoop, List.length_cons]
    omega

/-- If the target column c lies at or beyond the full expansion of the list,
the fromVirtualColumn loop consumes every character and returns the
character count plus the leftover excess. -/
theorem fromVirtLoop_all (tabWidth c : Nat) (l : List Char) (x z : Nat)
    (h : toVirtLoop tabWidth l x ≤ c) :
    fromVirtLoop tabWidth c l x z = z + l.length + (c - toVirtLoop tabWidth l x) := by
  induction l generalizing x z with
  | nil => simp [fromVirtLoop, toVirtLoop]
  | cons ch rest ih =>
    simp only [toVirtLoop] at h ⊢
    have hx := le_toVirtLoop tabWidth rest (x + charWidth tabWidth x ch)
    have hcond : ¬ c < x + charWidth tabWidth x ch := by omega
    simp only [fromVirtLoop, List.length_cons, if_neg hcond]
    rw [ih _ _ h]
    omega

/-- If the target column is exactly the expansion of a prefix l1, the
fromVirtualColumn loop stops exactly at the end of l1 with no excess. -/
theorem fromVirtLoop_exact (tabWidth : Nat) (hw : 1 ≤ tabWidth) (l1 l2 : List Char) (x z : Nat) :
    fromVirtLoop tabWidth (toVirtLoop tabWidth l1 x) (l1 ++ l2) x z = z + l1.length := by
  induction l1 generalizing x z with
  | nil =>
    cases l2 with
    | nil => simp [fromVirtLoop, toVirtLoop]
    | cons ch rest =>
      have h1 := one_le_charWidth tabWidth x ch hw
      have hcond : x < x + charWidth tabWidth x ch := by omega
      simp only [List.nil_append, toVirtLoop, fromVirtLoop, List.length_nil]
      rw [if_pos hcond]
      omega
  | cons ch rest ih =>
    have hx := le_toVirtLoop tabWidth rest (x + charWidth tabWidth x ch)
    have hcond : ¬ toVirtLoop tabWidth rest (x + charWidth tabWidth x ch)
        < x + charWidth tabWidth x ch := by omega
    simp only [List.cons_append, List.append_eq, toVirtLoop, fromVirtLoop,
      List.length_cons, if_neg hcond]
    rw [ih _ _]
    omega

/-- Round trip at the Nat level: mapping a character column to its virtual
column and back is the identity, for any tab width at least 1. -/
theorem fromVirtualColumn_toVirtualColumn (text : List Char) (tabWidth : Nat)
    (hw : 1 ≤ tabWidth) (c : Nat) :
    fromVirtualColumn text (toVirtualColumn text (c : Int) tabWidth) tabWidth = (c : Int) := by
  have hc0 : ¬ ((c : Int) < 0) := Int.not_lt.mpr (Int.natCast_nonneg c)
  rw [toVirtualColumn, if_neg hc0, Int.toNat_natCast]
  rw [fromVirtualColumn, if_neg (Int.not_lt.mpr (Int.natCast_nonneg _)), Int.toNat_natCast]
  norm_cast
  by_cases hc : c ≤ text.length
  · have hmin : min c text.length = c := Nat.min_eq_left hc
    rw [hmin]
    have hlen : (text.take c).length = c := by
      rw [List.length_take]
      exact Nat.min_eq_left hc
    have hcV : c ≤ toVirtLoop tabWidth (text.take c) 0 := by
      have := length_le_toVirtLoop tabWidth hw (text.take c) 0
      omega
    set V := toVirtLoop tabWidth (text.take c) 0 + (c - c) with hV
    have hVsimp : V = toVirtLoop tabWidth (text.take c) 0 := by omega
    have hcV' : c ≤ V := by omega
    have hminV : c ≤ min text.length V := le_min hc hcV'
    have hsplit : text.take (min text.length V)
        = text.take c ++ (text.take (min text.length V)).drop c := by
      have h1 : (text.take (min text.length V)).take c = text.take c := by
        rw [List.take_take, Nat.min_eq_left hminV]
      conv_lhs => rw [← List.take_append_drop c (text.take (min text.length V))]
      rw [h1]
    rw [hsplit, hVsimp]
    rw [fromVirtLoop_exact tabWidth hw]
    omega
  · push_neg at hc
    have hmin : min c text.length = text.length := Nat.min_eq_right (Nat.le_of_lt hc)
    rw [hmin, List.take_length]
    set L := toVirtLoop tabWidth text 0 with hL
    have hlenL : text.length ≤ L := by
      have := length_le_toVirtLoop tabWidth hw text 0
      omega
    have hminV : min text.length (L + (c - text.length)) = text.length := by
      apply Nat.min_eq_left
      omega
    rw [hminV, List.take_length]
    rw [fromVirtLoop_all tabWidth _ text 0 0 (by omega)]
    omega

/-- C10: for every line text, tab width at least 1 and character column
c at or past 0 (also past the line length), fromVirtualColumn is an exact
left inverse of toVirtualColumn. -/
theorem fromVirtualColumn_leftInverse (text : List Char) (tabWidth : Nat) (c : Int)
    (hw : 1 ≤ tabWidth) (hc : 0 ≤ c) :
    fromVirtualColumn text (toVirtualColumn text c tabWidth) tabWidth = c := by
  obtain ⟨n, rfl⟩ := Int.eq_ofNat_of_zero_le hc
  exact fromVirtualColumn_toVirtualColumn text tabWidth hw n

/-- Witness for C10 at a concrete input: text "a\tb", tab width 4, column 2. -/
theorem fromVirtualColumn_leftInverse_witness :
    fromVirtualColumn [ 'a', '\t', 'b' ] (toVirtualColumn [ 'a', '\t', 'b' ] 2 4) 4 = 2 :=
  fromVirtualColumn_leftInverse [ 'a', '\t', 'b' ] 4 2 (by decide) (by decide)

/-- C6: for every virtual column that lands exactly on a character boundary
under tab expansion (it is the image of some character index, which also
covers virtual columns past the total visual width, counted one to one),
toVirtualColumn composed with fromVirtualColumn gives it back. -/
theorem toVirtualColumn_fromVirtualColumn_boundary (text : List Char) (tabWidth : Nat) (v : Int)
    (hw : 1 ≤ tabWidth) (hv : ∃ c : Nat, toVirtualColumn text (c : Int) tabWidth = v) :
    toVirtualColumn text (fromVirtualColumn text v tabWidth) tabWidth = v := by
  obtain ⟨c, rfl⟩ := hv
  rw [fromVirtualColumn_toVirtualColumn text tabWidth hw c]

/-- Witness for C6 at a concrete input: text "a\t", tab width 4, virtual
column 4, which is the boundary after the tab (image of character index 2). -/
theorem toVirtualColumn_fromVirtualColumn_boundary_witness :
    toVirtualColumn [ 'a', '\t' ] (fromVirtualColumn [ 'a', '\t' ] 4 4) 4 = 4 :=
  toVirtualColumn_fromVirtualColumn_boundary [ 'a', '\t' ] 4 4 (by decide) ⟨2, by decide⟩

theorem attributeAt_eq_of_mem (pos : Nat) :
    ∀ runs : List Attribute,
      List.Pairwise (fun a b => a.offset + a.length ≤ b.offset) runs →
      ∀ r ∈ runs, r.offset ≤ pos → pos < r.offset + r.length →
      attributeAt runs pos = r.attributeValue := by
  intro runs
  induction runs with
  | nil => intro _ r hr; cases hr
  | cons a rest ih =>
    intro hs r hr h1 h2
    rw [List.pairwise_cons] at hs
    rcases List.mem_cons.mp hr with rfl | hr'
    · unfold attributeAt
      rw [List.find?_cons_of_pos _ (by simpa using h2)]
      simp only []
      rw [if_pos ⟨h1, h2⟩]
    · have ha : a.offset + a.length ≤ r.offset := hs.1 r hr'
      unfold attributeAt
      rw [List.find?_cons_of_neg _ (by simp; omega)]
      exact ih hs.2 r hr' h1 h2

theorem attributeAt_eq_zero (runs : List Attribute) (pos : Nat)
    (h : ∀ r ∈ runs, pos < r.offset ∨ r.offset + r.length ≤ pos) :
    attributeAt runs pos = 0 := by
  rcases hf : runs.find? (fun x => decide (pos < x.offset + x.length)) with _ | found
  · unfold attributeAt
    rw [hf]
  · have hmem : found ∈ runs := List.mem_of_find?_eq_some hf
    have hpred := List.find?_some hf
    simp only [decide_eq_true_eq] at hpred
    have hlt : pos < found.offset := by
      rcases h found hmem with h1 | h2
      · exact h1
      · omega
    unfold attributeAt
    rw [hf]
    show (if found.offset ≤ pos ∧ pos < found.offset + found.length
        then found.attributeValue else 0) = 0
    rw [if_neg (by omega)]

/-- C8: over a run list with non overlapping spans sorted ascending by
offset, attributeAt returns the value of the unique run whose half open
span contains pos, and 0 when no run contains pos. -/
theorem attributeAt_lookup (runs : List Attribute)
    (hs : List.Pairwise (fun a b => a.offset + a.length ≤ b.offset) runs) (pos : Nat) :
    (∀ r ∈ runs, r.offset ≤ pos → pos < r.offset + r.length →
        attributeAt runs pos = r.attributeValue)
    ∧ ((∀ r ∈ runs, pos < r.offset ∨ r.offset + r.length ≤ pos) →
        attributeAt runs pos = 0) :=
  ⟨fun r hr h1 h2 => attributeAt_eq_of_mem pos runs hs r hr h1 h2,
   fun h => attributeAt_eq_zero runs pos h⟩

/-- Witness for C8: runs [0,2) value 5 and [3,4) value 7; position 3 lies in
the second run, position 2 falls in the gap. -/
theorem attributeAt_lookup_witness :
    attributeAt [⟨0, 2, 5⟩, ⟨3, 1, 7⟩] 3 = 7 ∧ attributeAt [⟨0, 2, 5⟩, ⟨3, 1, 7⟩] 2 = 0 :=
  ⟨(attributeAt_lookup [⟨0, 2, 5⟩, ⟨3, 1, 7⟩] (by decide) 3).1 ⟨3, 1, 7⟩ (by decide)
      (by decide) (by decide),
   (attributeAt_lookup [⟨0, 2, 5⟩, ⟨3, 1, 7⟩] (by decide) 2).2 (by decide)⟩

theorem addAttribute_concat (L : List Attribute) (b a : Attribute) :
    addAttribute (L ++ [b]) a =
      if b.attributeValue = a.attributeValue ∧ b.offset + b.length = a.offset then
        L ++ [⟨b.offset, b.length + a.length, b.attributeValue⟩]
      else (L ++ [b]) ++ [a] := by
  simp only [addAttribute, List.getLast?_concat, List.dropLast_concat]

/-- Counterexample to C9 as stated: the input [0,2) value 5 has no adjacent
equal values, the new run [3,4) value 5 starts at or after the end of the
last run, yet the result has two consecutive runs with the same value
(the gap between 2 and 3 prevents the merge). -/
theorem addAttribute_adjacent_values_cex :
    List.Chain' (fun x y => x.attributeValue ≠ y.attributeValue) [(⟨0, 2, 5⟩ : Attribute)]
    ∧ (∀ b ∈ ([(⟨0, 2, 5⟩ : Attribute)]).getLast?,
        b.offset + b.length ≤ (⟨3, 1, 5⟩ : Attribute).offset)
    ∧ ¬ List.Chain' (fun x y => x.attributeValue ≠ y.attributeValue)
        (addAttribute [⟨0, 2, 5⟩] ⟨3, 1, 5⟩) := by
  refine ⟨List.chain'_singleton _, ?_, ?_⟩
  · intro b hb
    simp only [List.getLast?_singleton, Option.mem_def, Option.some.injEq] at hb
    subst hb
    decide
  · have hadd : addAttribute [⟨0, 2, 5⟩] ⟨3, 1, 5⟩
        = [(⟨0, 2, 5⟩ : Attribute), ⟨3, 1, 5⟩] := rfl
    rw [hadd]
    intro hch
    rw [List.chain'_cons] at hch
    exact hch.1 rfl

/-- C9 amended: under the caller contract (new run starts at or after the
end of the last run), addAttribute preserves the invariant that no two
consecutive runs are mergeable (same value and span adjacent), and the new
run is merged exactly when it is mergeable with the last run. Without span
adjacency, equal values across a gap legitimately stay as two runs. -/
theorem addAttribute_no_mergeable_adjacent (l : List Attribute) (a : Attribute)
    (hchain : List.Chain' (fun x y => ¬ mergeableWith x y) l)
    (hord : ∀ b ∈ l.getLast?, b.offset + b.length ≤ a.offset) :
    List.Chain' (fun x y => ¬ mergeableWith x y) (addAttribute l a)
    ∧ ((addAttribute l a).length = l.length
        ↔ ∃ b, l.getLast? = some b ∧ mergeableWith b a) := by
  rcases List.eq_nil_or_concat l with rfl | ⟨L, b, rfl⟩
  · constructor
    · simp [addAttribute]
    · simp [addAttribute]
  · simp only [List.concat_eq_append] at hchain hord ⊢
    rw [addAttribute_concat]
    by_cases hm : b.attributeValue = a.attributeValue ∧ b.offset + b.length = a.offset
    · rw [if_pos hm]
      constructor
      · rw [List.chain'_append] at hchain ⊢
        refine ⟨hchain.1, List.chain'_singleton _, ?_⟩
        intro x hx y hy
        simp only [List.head?_cons, Option.mem_def, Option.some.injEq] at hy
        subst hy
        exact hchain.2.2 x hx b (by simp)
      · constructor
        · intro _
          exact ⟨b, List.getLast?_concat L, hm⟩
        · intro _
          simp
    · rw [if_neg hm]
      constructor
      · rw [List.chain'_append]
        refine ⟨hchain, List.chain'_singleton _, ?_⟩
        intro x hx y hy
        simp only [List.head?_cons, Option.mem_def, Option.some.injEq] at hy
        subst hy
        rw [List.getLast?_concat, Option.mem_def, Option.some.injEq] at hx
        subst hx
        exact hm
      · constructor
        · intro h
          exfalso
          simp at h
        · rintro ⟨b', hb', hm'⟩
          rw [List.getLast?_concat, Option.some.injEq] at hb'
          subst hb'
          exact absurd hm' hm

/-- Witness for C9 amended: merging [0,2) value 5 with the adjacent run
[2,5) value 5 keeps the list a single run. -/
theorem addAttribute_no_mergeable_adjacent_witness :
    List.Chain' (fun x y => ¬ mergeableWith x y) (addAttribute [⟨0, 2, 5⟩] ⟨2, 3, 5⟩)
    ∧ ((addAttribute [⟨0, 2, 5⟩] ⟨2, 3, 5⟩).length = ([(⟨0, 2, 5⟩ : Attribute)]).length
        ↔ ∃ b, ([(⟨0, 2, 5⟩ : Attribute)]).getLast? = some b ∧ mergeableWith b ⟨2, 3, 5⟩) :=
  addAttribute_no_mergeable_adjacent [⟨0, 2, 5⟩] ⟨2, 3, 5⟩ (List.chain'_singleton _)
    (by
      intro b hb
      simp only [List.getLast?_singleton, Option.mem_def, Option.some.injEq] at hb
      subst hb
      decide)

/-- C2: every InsertText and RemoveText record sets RedoLine1Modified, and
sets UndoLine1Modified exactly when the edited line was marked modified at
construction time, UndoLine1Saved exactly otherwise. -/
theorem insertRemoveText_construction_flags (tl : LineState) :
    isFlagSet (mkInsertText tl) .RedoLine1Modified = true
    ∧ isFlagSet (mkInsertText tl) .UndoLine1Modified = markedAsModified tl
    ∧ isFlagSet (mkInsertText tl) .UndoLine1Saved = !(markedAsModified tl)
    ∧ isFlagSet (mkRemoveText tl) .RedoLine1Modified = true
    ∧ isFlagSet (mkRemoveText tl) .UndoLine1Modified = markedAsModified tl
    ∧ isFlagSet (mkRemoveText tl) .UndoLine1Saved = !(markedAsModified tl) := by
  rcases tl with ⟨m, s⟩
  cases m <;> cases s <;> exact ⟨rfl, rfl, rfl, rfl, rfl, rfl⟩

/-- C7: after constructing an InsertText record on a line not marked
modified, undo puts the line into the SavedOnDisk state (savedOnDisk true,
modified false) whatever its state at undo time, and the subsequent redo
puts it into the Modified state (modified true, savedOnDisk false). -/
theorem insertText_clean_undo_redo (tl s : LineState)
    (h : markedAsModified tl = false) :
    KateModifiedInsertText.undo (mkInsertText tl) s = ⟨false, true⟩
    ∧ KateModifiedInsertText.redo (mkInsertText tl)
        (KateModifiedInsertText.undo (mkInsertText tl) s) = ⟨true, false⟩ := by
  rcases tl with ⟨m, sv⟩
  cases m
  · rcases s with ⟨a, b⟩
    cases sv <;> cases a <;> cases b <;> exact ⟨rfl, rfl⟩
  · exact absurd h (by simp [markedAsModified])

/-- Witness for C7 on a concrete clean line. -/
theorem insertText_clean_undo_redo_witness :
    KateModifiedInsertText.undo (mkInsertText ⟨false, true⟩) ⟨true, false⟩
      = (⟨false, true⟩ : LineState)
    ∧ KateModifiedInsertText.redo (mkInsertText ⟨false, true⟩)
        (KateModifiedInsertText.undo (mkInsertText ⟨false, true⟩) ⟨true, false⟩)
      = (⟨true, false⟩ : LineState) :=
  insertText_clean_undo_redo ⟨false, true⟩ ⟨true, false⟩ rfl

/-- C1: when neither flag of a (line slot, direction) pair is set in a
record, executing the record's undo respectively redo leaves that line's
modified and savedOnDisk flags unchanged (the text mutation of the base
class aside); in particular for a WrapLine record built from a line that is
neither modified nor savedOnDisk, whose redo line 2 pair (split at column
at most 0 with characters still moved) or undo line 1 pair (one half
empty) is empty. -/
theorem flag_pair_empty_frame (f : Flags) (tl : LineState) :
    (isFlagSet f .UndoLine1Modified = false → isFlagSet f .UndoLine1Saved = false →
      applyUndoLine1 f tl = tl)
    ∧ (isFlagSet f .UndoLine2Modified = false → isFlagSet f .UndoLine2Saved = false →
      applyUndoLine2 f tl = tl)
    ∧ (isFlagSet f .RedoLine1Modified = false → isFlagSet f .RedoLine1Saved = false →
      applyRedoLine1 f tl = tl)
    ∧ (isFlagSet f .RedoLine2Modified = false → isFlagSet f .RedoLine2Saved = false →
      applyRedoLine2 f tl = tl)
    ∧ (∀ col len : Int, col ≤ 0 → len ≠ 0 →
      applyRedoLine2 (mkWrapLine ⟨false, false⟩ col len) tl = tl)
    ∧ (∀ col len : Int, ¬ (0 < len ∧ 0 < col) →
      applyUndoLine1 (mkWrapLine ⟨false, false⟩ col len) tl = tl) := by
  refine ⟨?_, ?_, ?_, ?_, ?_, ?_⟩
  · intro h1 h2
    simp only [isFlagSet] at h1 h2
    simp [applyUndoLine1, isFlagSet, markAsModified, markAsSavedOnDisk, h1, h2]
  · intro h1 h2
    simp only [isFlagSet] at h1 h2
    simp [applyUndoLine2, isFlagSet, markAsModified, markAsSavedOnDisk, h1, h2]
  · intro h1 h2
    simp only [isFlagSet] at h1 h2
    simp [applyRedoLine1, isFlagSet, markAsModified, markAsSavedOnDisk, h1, h2]
  · intro h1 h2
    simp only [isFlagSet] at h1 h2
    simp [applyRedoLine2, isFlagSet, markAsModified, markAsSavedOnDisk, h1, h2]
  · intro col len h1 h2
    have hcol : ¬ (0 < col) := by omega
    by_cases hl : 0 < len <;>
      simp [mkWrapLine, markedAsModified, markedAsSavedOnDisk, hcol, h2, hl,
        applyRedoLine2, isFlagSet, setFlag, emptyFlags, markAsModified, markAsSavedOnDisk]
  · intro col len h
    by_cases h1 : 0 < len
    · have hc : ¬ (0 < col) := fun hc => h ⟨h1, hc⟩
      have h0 : ¬ (len = 0) := by omega
      simp [mkWrapLine, markedAsModified, markedAsSavedOnDisk, h1, hc, h0,
        applyUndoLine1, isFlagSet, setFlag, emptyFlags, markAsModified, markAsSavedOnDisk]
    · by_cases h2 : 0 < col ∨ len = 0 <;>
        simp [mkWrapLine, markedAsModified, markedAsSavedOnDisk, h1, h2,
          applyUndoLine1, isFlagSet, setFlag, emptyFlags, markAsModified, markAsSavedOnDisk]

/-- Witness for C1: a record with no flags set leaves a modified line
untouched by the undo line 1 update. -/
theorem flag_pair_empty_frame_witness :
    applyUndoLine1 emptyFlags ⟨true, false⟩ = (⟨true, false⟩ : LineState) :=
  (flag_pair_empty_frame emptyFlags ⟨true, false⟩).1 rfl rfl

/-- Counterexample to C3 as stated: wrapping a never-touched line (neither
modified nor savedOnDisk) at column 3 with 2 trailing characters moved
records UndoLine1Saved, so undo yields the SavedOnDisk state and not the
pre-split state: the claim's restoration fails for this pre-split state. -/
theorem wrapLine_restore_cex :
    KateModifiedWrapLine.undo (mkWrapLine ⟨false, false⟩ 3 2) ⟨true, false⟩
      = (⟨false, true⟩ : LineState)
    ∧ KateModifiedWrapLine.undo (mkWrapLine ⟨false, false⟩ 3 2) ⟨true, false⟩
      ≠ (⟨false, false⟩ : LineState) :=
  ⟨rfl, by decide⟩

/-- C3 amended: when both halves are nonempty (col and len positive), redo
marks both resulting lines Modified; undo restores the pre-split state
exactly for every pre-split state holding exactly one of the modified and
savedOnDisk markers. The never-touched state (neither marker) is excluded:
the record stores UndoLine1Saved for it and undo lands on SavedOnDisk. -/
theorem wrapLine_redo_undo_amended (tl s1 s2 s : LineState) (col len : Int)
    (hcol : 0 < col) (hlen : 0 < len) (hx : tl.savedOnDisk = !tl.modified) :
    (KateModifiedWrapLine.redo (mkWrapLine tl col len) s1 s2).1 = ⟨true, false⟩
    ∧ (KateModifiedWrapLine.redo (mkWrapLine tl col len) s1 s2).2 = ⟨true, false⟩
    ∧ KateModifiedWrapLine.undo (mkWrapLine tl col len) s = tl := by
  rcases tl with ⟨m, sv⟩
  cases m <;> cases sv <;>
    first
      | exact absurd hx (by decide)
      | simp [KateModifiedWrapLine.redo, KateModifiedWrapLine.undo, mkWrapLine,
          markedAsModified, markedAsSavedOnDisk, hcol, hlen,
          applyRedoLine1, applyRedoLine2, applyUndoLine1, isFlagSet, setFlag,
          emptyFlags, markAsModified, markAsSavedOnDisk]

/-- Witness for C3 amended: wrap of a savedOnDisk line at column 3 with 2
characters moved. -/
theorem wrapLine_redo_undo_amended_witness :
    (KateModifiedWrapLine.redo (mkWrapLine ⟨false, true⟩ 3 2) ⟨false, false⟩ ⟨false, false⟩).1
      = (⟨true, false⟩ : LineState)
    ∧ (KateModifiedWrapLine.redo (mkWrapLine ⟨false, true⟩ 3 2) ⟨false, false⟩ ⟨false, false⟩).2
      = (⟨true, false⟩ : LineState)
    ∧ KateModifiedWrapLine.undo (mkWrapLine ⟨false, true⟩ 3 2) ⟨true, false⟩
      = (⟨false, true⟩ : LineState) :=
  wrapLine_redo_undo_amended ⟨false, true⟩ ⟨false, false⟩ ⟨false, false⟩ ⟨true, false⟩ 3 2
    (by decide) (by decide) rfl

/-- C5: each of the six record kinds establishes the at-most-one-per-pair
flag invariant at construction, and every reconciliation update preserves
it (it only turns a Modified flag into the corresponding Saved flag). -/
theorem flag_pairs_invariant :
    (∀ tl, pairInvariant (mkInsertText tl) = true)
    ∧ (∀ tl, pairInvariant (mkRemoveText tl) = true)
    ∧ (∀ tl col len, pairInvariant (mkWrapLine tl col len) = true)
    ∧ (∀ tl nl len1 len2, pairInvariant (mkUnWrapLine tl nl len1 len2) = true)
    ∧ pairInvariant mkInsertLine = true
    ∧ (∀ tl, pairInvariant (mkRemoveLine tl) = true)
    ∧ (∀ it br, pairInvariant it.flags = true →
        pairInvariant (updateRedoFlag it br).1.flags = true)
    ∧ (∀ it bu, pairInvariant it.flags = true →
        pairInvariant (updateUndoFlag it bu).1.flags = true) := by
  refine ⟨?_, ?_, ?_, ?_, ?_, ?_, ?_, ?_⟩
  · intro tl
    rcases tl with ⟨m, s⟩
    cases m <;> rfl
  · intro tl
    rcases tl with ⟨m, s⟩
    cases m <;> rfl
  · intro tl col len
    rcases tl with ⟨m, s⟩
    cases m <;> cases s <;>
      (simp only [mkWrapLine, markedAsModified, markedAsSavedOnDisk]
       split_ifs <;> rfl)
  · intro tl nl len1 len2
    rcases tl with ⟨m, s⟩
    rcases nl with ⟨m2, s2⟩
    cases m <;> cases s <;> cases m2 <;> cases s2 <;>
      (simp only [mkUnWrapLine, markedAsModified, markedAsSavedOnDisk]
       split_ifs <;> rfl)
  · rfl
  · intro tl
    rcases tl with ⟨m, s⟩
    cases m <;> rfl
  · intro it br hinv
    rcases it with ⟨k, line, f⟩
    rcases f with ⟨a, b, c, d, e, g, h2, i⟩
    cases k <;>
      simp only [updateRedoFlag, KateModifiedInsertText.updateRedoSavedOnDiskFlag,
        KateModifiedRemoveText.updateRedoSavedOnDiskFlag,
        KateModifiedWrapLine.updateRedoSavedOnDiskFlag,
        KateModifiedUnWrapLine.updateRedoSavedOnDiskFlag,
        KateModifiedInsertLine.updateRedoSavedOnDiskFlag,
        isFlagSet, setFlag, unsetFlag, testBit, setBit] <;>
      first
        | (split_ifs <;> simp_all [pairInvariant])
        | simp_all [pairInvariant]
  · intro it bu hinv
    rcases it with ⟨k, line, f⟩
    rcases f with ⟨a, b, c, d, e, g, h2, i⟩
    cases k <;>
      simp only [updateUndoFlag, KateModifiedInsertText.updateUndoSavedOnDiskFlag,
        KateModifiedRemoveText.updateUndoSavedOnDiskFlag,
        KateModifiedWrapLine.updateUndoSavedOnDiskFlag,
        KateModifiedUnWrapLine.updateUndoSavedOnDiskFlag,
        KateModifiedRemoveLine.updateUndoSavedOnDiskFlag,
        isFlagSet, setFlag, unsetFlag, testBit, setBit] <;>
      first
        | (split_ifs <;> simp_all [pairInvariant])
        | simp_all [pairInvariant]

/-- Witness for C5: the redo reconciliation update of a WrapLine record
keeps the pair invariant. -/
theorem flag_pairs_invariant_witness :
    pairInvariant
        (updateRedoFlag ⟨.wrapLine, 5, mkWrapLine ⟨false, false⟩ 0 2⟩ emptyBitmap).1.flags
      = true :=
  flag_pairs_invariant.2.2.2.2.2.2.1 ⟨.wrapLine, 5, mkWrapLine ⟨false, false⟩ 0 2⟩
    emptyBitmap (by decide)

/-- Counterexample to C4 as stated: a WrapLine record on line 5 carrying
only RedoLine1Modified (wrap at column 0 of a never-touched line, moving 2
characters) followed by an InsertText record on line 5. The first pass
converts the WrapLine flag and the marker bit blocks the InsertText record;
in the second pass the WrapLine, now Saved, is guarded out and no longer
sets the marker bit, so the InsertText record also converts: the flags
after the second pass differ from those after the first. -/
theorem reconcile_idempotent_cex :
    reconcile (reconcile
        [⟨.wrapLine, 5, mkWrapLine ⟨false, false⟩ 0 2⟩,
         ⟨.insertText, 5, mkInsertText ⟨true, false⟩⟩])
      ≠ reconcile
        [⟨.wrapLine, 5, mkWrapLine ⟨false, false⟩ 0 2⟩,
         ⟨.insertText, 5, mkInsertText ⟨true, false⟩⟩] := by
  decide

theorem reconcilePass_idem :
    ∀ items : List UndoItem, (∀ it ∈ items, isTwoLineKind it.kind = false) →
      ∀ br bu, reconcilePass (reconcilePass items br bu) br bu
        = reconcilePass items br bu := by
  intro items
  induction items with
  | nil => intro _ br bu; rfl
  | cons it rest ih =>
    intro h br bu
    have hit := h it (List.mem_cons_self it rest)
    have hrest : ∀ x ∈ rest, isTwoLineKind x.kind = false :=
      fun x hx => h x (List.mem_cons_of_mem it hx)
    rcases it with ⟨k, line, f⟩
    rcases f with ⟨a, b, c, d, e, g, h2, i⟩
    cases k
    case wrapLine => simp [isTwoLineKind] at hit
    case unwrapLine => simp [isTwoLineKind] at hit
    all_goals
      cases hbr : br line <;> cases hbu : bu line <;>
        simp [reconcilePass, updateRedoFlag, updateUndoFlag,
          KateModifiedInsertText.updateRedoSavedOnDiskFlag,
          KateModifiedInsertText.updateUndoSavedOnDiskFlag,
          KateModifiedRemoveText.updateRedoSavedOnDiskFlag,
          KateModifiedRemoveText.updateUndoSavedOnDiskFlag,
          KateModifiedInsertLine.updateRedoSavedOnDiskFlag,
          KateModifiedRemoveLine.updateUndoSavedOnDiskFlag,
          setFlag, unsetFlag, isFlagSet, testBit, setBit, hbr, hbu, ih hrest]

/-- C4 amended: the save reconciliation pass is idempotent on every
sequence of single line records (InsertText, RemoveText, InsertLine,
RemoveLine). The WrapLine and UnwrapLine updates are guarded on the
Modified flag, so a converted record of those kinds stops claiming its
marker bit in a second pass and can unblock a later record on the same
line, as the counterexample shows. -/
theorem reconcile_idempotent_amended (items : List UndoItem)
    (h : ∀ it ∈ items, isTwoLineKind it.kind = false) :
    reconcile (reconcile items) = reconcile items :=
  reconcilePass_idem items h emptyBitmap emptyBitmap

/-- Witness for C4 amended: two single line records on the same line. -/
theorem reconcile_idempotent_amended_witness :
    reconcile (reconcile
        [⟨.insertText, 5, mkInsertText ⟨true, false⟩⟩,
         ⟨.removeText, 5, mkRemoveText ⟨true, false⟩⟩])
      = reconcile
        [⟨.insertText, 5, mkInsertText ⟨true, false⟩⟩,
         ⟨.removeText, 5, mkRemoveText ⟨true, false⟩⟩] :=
  reconcile_idempotent_amended
    [⟨.insertText, 5, mkInsertText ⟨true, false⟩⟩,
     ⟨.removeText, 5, mkRemoveText ⟨true, false⟩⟩] (by decide)

end KTE
